import Mathlib

/-!
# Texture-format demo: `texture_formats/src/main.c`

A shallow embedding of the program's format table, its two helper functions
(`bsf`, `is_pow2`), the start-up sequence of `main` and one iteration of its
render loop, followed by the properties of the design document that can be
stated over them.

Conventions.
* C `int` values are mathematical integers; where the bit pattern or the 32-bit
  range matters (`is_pow2`, `bsf`, the allocation size `dst_tex_buf_size`) the
  value is taken modulo `2^32`.
* Memory reachable through a pointer is a function from byte offsets to byte
  values (`Mem`); offsets are relative to the pointer.
* `float` values are IEEE-754 binary32 bit patterns. The program never does
  float arithmetic on texture coordinates: it only tests them against zero and
  stores one of two constants.
* Values that come from outside `main.c` (the mount result, the loaded image,
  the vertex table of `verts.h`, the pixel re-encoding done by SDL, the pad
  state on each tick) are inputs of the model.
-/

namespace TextureFormats

/-! ## Machine-level helpers -/

/-- Bit pattern of a 32-bit `int`: its value modulo `2^32`. -/
def u32 (v : Int) : Nat := (v % 4294967296).toNat

/-- Source, lines 61-64: `bool is_pow2(int val) { return (val & (val - 1)) == 0; }`.
The bitwise and is taken on the two's-complement patterns; `val - 1` wraps at
`INT_MIN` as the x86 subtraction does. -/
def is_pow2 (val : Int) : Bool := Nat.land (u32 val) (u32 (val - 1)) == 0

/-- Scan of a bit pattern from bit `idx` upwards for the first set bit, over at
most `fuel` positions (the register is 32 bits wide). -/
def bsf_scan : Nat → Nat → Nat → Nat
  | 0, _, idx => idx
  | fuel + 1, bits, idx => if bits % 2 = 1 then idx else bsf_scan fuel (bits / 2) (idx + 1)

/-- Source, lines 56-59: `int bsf(int val) { __asm bsf eax, val }`. The x86 `bsf`
instruction stores the index of the least significant set bit of `val`; for
`val = 0` it leaves the destination undefined, so the function returns whatever
`eax` held, which is the first argument here. -/
def bsf (eax : Nat) (val : Int) : Nat :=
  if u32 val = 0 then eax else bsf_scan 32 (u32 val) 0

/-! ## Data model -/

/-- The SDL pixel encodings named in `format_map`. -/
inductive SDL_PixelFormatEnum where
  | SDL_PIXELFORMAT_ABGR8888
  | SDL_PIXELFORMAT_RGBA8888
  | SDL_PIXELFORMAT_ARGB1555
  | SDL_PIXELFORMAT_ARGB4444
  | SDL_PIXELFORMAT_RGB565
  | SDL_PIXELFORMAT_ARGB8888
  | SDL_PIXELFORMAT_BGRA8888
  deriving DecidableEq, Repr

/-- The hardware texel encodings named in `format_map`. Their numeric values live
in `xgu.h`; the one entry written as a number in the source is `raw 0x3B`. -/
inductive XguTexFormatColor where
  | XGU_TEXTURE_FORMAT_A8B8G8R8_SWIZZLED
  | XGU_TEXTURE_FORMAT_R8G8B8A8_SWIZZLED
  | XGU_TEXTURE_FORMAT_A1R5G5B5_SWIZZLED
  | XGU_TEXTURE_FORMAT_X1R5G5B5_SWIZZLED
  | XGU_TEXTURE_FORMAT_A4R4G4B4_SWIZZLED
  | XGU_TEXTURE_FORMAT_R5G6B5_SWIZZLED
  | XGU_TEXTURE_FORMAT_A8R8G8B8_SWIZZLED
  | XGU_TEXTURE_FORMAT_X8R8G8B8_SWIZZLED
  | XGU_TEXTURE_FORMAT_A1R5G5B5
  | XGU_TEXTURE_FORMAT_R5G6B5
  | XGU_TEXTURE_FORMAT_A8R8G8B8
  | XGU_TEXTURE_FORMAT_X1R5G5B5
  | XGU_TEXTURE_FORMAT_A4R4G4B4
  | XGU_TEXTURE_FORMAT_X8R8G8B8
  | XGU_TEXTURE_FORMAT_A8B8G8R8
  | XGU_TEXTURE_FORMAT_B8G8R8A8
  | XGU_TEXTURE_FORMAT_R8G8B8A8
  | raw (code : Nat)
  deriving DecidableEq, Repr

/-- Source, lines 13-19: `struct FormatInfo`. -/
structure FormatInfo where
  SdlFormat : SDL_PixelFormatEnum
  XguFormat : XguTexFormatColor
  XguSwizzled : Bool
  RequireConversion : Bool
  Name : String
  deriving DecidableEq, Repr

open SDL_PixelFormatEnum XguTexFormatColor in
/-- Source, lines 72-103: the table `format_map` (the commented-out rows are not
part of it). -/
def format_map : List FormatInfo :=
  [ ⟨SDL_PIXELFORMAT_ABGR8888, XGU_TEXTURE_FORMAT_A8B8G8R8_SWIZZLED, true, false, "SZ_A8B8G8R8"⟩,
    ⟨SDL_PIXELFORMAT_RGBA8888, XGU_TEXTURE_FORMAT_R8G8B8A8_SWIZZLED, true, false, "SZ_R8G8B8A8"⟩,
    ⟨SDL_PIXELFORMAT_ARGB1555, XGU_TEXTURE_FORMAT_A1R5G5B5_SWIZZLED, true, false, "SZ_A1R5G5B5"⟩,
    ⟨SDL_PIXELFORMAT_ARGB1555, XGU_TEXTURE_FORMAT_X1R5G5B5_SWIZZLED, true, false, "SZ_X1R5G5B5"⟩,
    ⟨SDL_PIXELFORMAT_ARGB4444, XGU_TEXTURE_FORMAT_A4R4G4B4_SWIZZLED, true, false, "SZ_A4R4G4B4"⟩,
    ⟨SDL_PIXELFORMAT_RGB565, XGU_TEXTURE_FORMAT_R5G6B5_SWIZZLED, true, false, "SZ_R5G6B5"⟩,
    ⟨SDL_PIXELFORMAT_ARGB8888, XGU_TEXTURE_FORMAT_A8R8G8B8_SWIZZLED, true, false, "SZ_A8R8G8B8"⟩,
    ⟨SDL_PIXELFORMAT_ARGB8888, XGU_TEXTURE_FORMAT_X8R8G8B8_SWIZZLED, true, false, "SZ_X8R8G8B8"⟩,
    ⟨SDL_PIXELFORMAT_BGRA8888, raw 0x3B, true, false, "SZ_B8G8R8A8"⟩,
    ⟨SDL_PIXELFORMAT_ARGB1555, XGU_TEXTURE_FORMAT_A1R5G5B5, false, false, "A1R5G5B5"⟩,
    ⟨SDL_PIXELFORMAT_RGB565, XGU_TEXTURE_FORMAT_R5G6B5, false, false, "R5G6B5"⟩,
    ⟨SDL_PIXELFORMAT_ARGB8888, XGU_TEXTURE_FORMAT_A8R8G8B8, false, false, "A8R8G8B8"⟩,
    ⟨SDL_PIXELFORMAT_ARGB1555, XGU_TEXTURE_FORMAT_X1R5G5B5, false, false, "X1R5G5B5"⟩,
    ⟨SDL_PIXELFORMAT_ARGB4444, XGU_TEXTURE_FORMAT_A4R4G4B4, false, false, "A4R4G4B4"⟩,
    ⟨SDL_PIXELFORMAT_ARGB8888, XGU_TEXTURE_FORMAT_X8R8G8B8, false, false, "X8R8G8B8"⟩,
    ⟨SDL_PIXELFORMAT_ABGR8888, XGU_TEXTURE_FORMAT_A8B8G8R8, false, false, "A8B8G8R8"⟩,
    ⟨SDL_PIXELFORMAT_BGRA8888, XGU_TEXTURE_FORMAT_B8G8R8A8, false, false, "B8G8R8A8"⟩,
    ⟨SDL_PIXELFORMAT_RGBA8888, XGU_TEXTURE_FORMAT_R8G8B8A8, false, false, "R8G8B8A8"⟩ ]

/-- The table read `format_map[i]`. An index outside the table is undefined
behaviour in C; the model then yields the first row. The loop never asks for
it: its index stays below the length of the table. -/
def format_map_at (i : Nat) : FormatInfo :=
  format_map.getD i
    ⟨SDL_PixelFormatEnum.SDL_PIXELFORMAT_ABGR8888,
      XguTexFormatColor.XGU_TEXTURE_FORMAT_A8B8G8R8_SWIZZLED, true, false, "SZ_A8B8G8R8"⟩

/-- Source, line 200: `(format_map_index + 1) % (sizeof(format_map) / sizeof(format_map[0]))`,
with `count` the number of rows. The sum is at most `count`, so neither the
`int` addition nor its conversion to `size_t` changes the value. -/
def next_format_index (count format_map_index : Nat) : Nat :=
  (format_map_index + 1) % count

/-- Byte-addressed memory behind a pointer: offset to byte value. -/
abbrev Mem := Nat → Nat

/-- Source, lines 21-25: `struct Vertex`; each `float` is its binary32 bit pattern. -/
structure Vertex where
  pos : Nat × Nat × Nat
  texcoord : Nat × Nat
  normal : Nat × Nat × Nat
  deriving DecidableEq, Repr

/-- Bit pattern of `1.0f`. -/
def f32_one : Nat := 0x3F800000

/-- Bit pattern of `256.0f`. -/
def f32_256 : Nat := 0x43800000

/-- The C condition `if (f)` on a `float` given by its bit pattern: true unless the
value is `+0.0` or `-0.0` (all bits below the sign bit clear). -/
def f32_nonzero (bits : Nat) : Bool := bits % 2147483648 != 0

/-- The fields of an `SDL_Surface` that `main` reads: `w`, `h`, `pitch`,
`format->BytesPerPixel` and the bytes behind `pixels`. -/
structure SDL_Surface where
  w : Nat
  h : Nat
  pitch : Nat
  BytesPerPixel : Nat
  pixels : Mem

/-- SDL's `SDL_BYTESPERPIXEL` for the encodings of the table: four bytes for the
8888 encodings, two for the 1555, 4444 and 565 ones. -/
def SDL_BYTESPERPIXEL : SDL_PixelFormatEnum → Nat
  | .SDL_PIXELFORMAT_ABGR8888 => 4
  | .SDL_PIXELFORMAT_RGBA8888 => 4
  | .SDL_PIXELFORMAT_ARGB8888 => 4
  | .SDL_PIXELFORMAT_BGRA8888 => 4
  | .SDL_PIXELFORMAT_ARGB1555 => 2
  | .SDL_PIXELFORMAT_ARGB4444 => 2
  | .SDL_PIXELFORMAT_RGB565 => 2

/-- SDL's `SDL_ConvertSurfaceFormat(src, fmt, 0)`, an external library call: the
result has the dimensions of `src`, the pixel size of `fmt`, rows padded to a
multiple of four bytes, and pixel bytes given by SDL's re-encoding, which the
model takes as the function `reencode`. `main` uses the result without testing
it, so the call is taken to succeed. -/
def SDL_ConvertSurfaceFormat (reencode : SDL_Surface → SDL_PixelFormatEnum → Mem)
    (src : SDL_Surface) (fmt : SDL_PixelFormatEnum) : SDL_Surface :=
  { w := src.w
    h := src.h
    pitch := (src.w * SDL_BYTESPERPIXEL fmt + 3) / 4 * 4
    BytesPerPixel := SDL_BYTESPERPIXEL fmt
    pixels := reencode src fmt }

/-! ## Copies into the texture buffer -/

/-- The C call `memcpy(dst + dst_off, src + src_off, n)`. -/
def memcpy_at (dst : Mem) (dst_off : Nat) (src : Mem) (src_off n : Nat) : Mem :=
  fun a => if dst_off ≤ a ∧ a < dst_off + n then src (src_off + (a - dst_off)) else dst a

/-- Modelled from the spec: the texel index used by `swizzle_rect` of
`common/swizzle.h`, which is not among the sources. The design document (4.2)
gives the destination of pixel `(x, y)` as "the tiled offset derived by
interleaving the bits of x and y": bit `i` of `x` goes to position `2*i` and
bit `i` of `y` to position `2*i + 1` (so that pixel `(1,0)` has index 1 and
pixel `(0,1)` index 2, as in the scenario of section 8). -/
def interleave (x y : Nat) : Nat :=
  if x = 0 ∧ y = 0 then 0
  else x % 2 + 2 * (y % 2) + 4 * interleave (x / 2) (y / 2)
termination_by x + y
decreasing_by omega

/-- Modelled from the spec: `swizzle_rect` of `common/swizzle.h`, which is not
among the sources, called as
`swizzle_rect(src, width, height, dst, pitch, bytes_per_pixel)`. Per the design
document (4.2) it visits every pixel `(x, y)` of the linear source, read at
`y*pitch + x*bytes_per_pixel`, and copies its bytes to the tiled offset
`interleave x y` scaled by `bytes_per_pixel`. -/
def swizzle_rect (src_buf : Mem) (width height : Nat) (dst_buf : Mem)
    (pitch bytes_per_pixel : Nat) : Mem :=
  (List.range height).foldl
    (fun d y =>
      (List.range width).foldl
        (fun d x =>
          memcpy_at d (interleave x y * bytes_per_pixel)
            src_buf (y * pitch + x * bytes_per_pixel) bytes_per_pixel)
        d)
    dst_buf

/-- Source, lines 171-175 and 205-209: the fill of `dst_tex_buf` from the
converted surface, by `swizzle_rect` for a swizzled row of the table and by
`memcpy(dst_tex_buf, dst_txt->pixels, dst_txt->pitch * dst_txt->h)` otherwise. -/
def fill_texture (e : FormatInfo) (dst_txt : SDL_Surface) (dst_tex_buf : Mem) : Mem :=
  if e.XguSwizzled then
    swizzle_rect dst_txt.pixels dst_txt.w dst_txt.h dst_tex_buf dst_txt.pitch
      dst_txt.BytesPerPixel
  else
    memcpy_at dst_tex_buf 0 dst_txt.pixels 0 (dst_txt.pitch * dst_txt.h)

/-- Source, lines 178-182 and 212-216: the texture-coordinate rewrite, one pass
over all vertices with `val = XguSwizzled ? 1.0f : 256.0f`. -/
def normalize_texcoords (e : FormatInfo) (vs : List Vertex) : List Vertex :=
  vs.map fun v =>
    let val := if e.XguSwizzled then f32_one else f32_256
    { v with
      texcoord :=
        (if f32_nonzero v.texcoord.1 then val else v.texcoord.1,
         if f32_nonzero v.texcoord.2 then val else v.texcoord.2) }

/-! ## Texture binding -/

/-- The pushbuffer commands of the "Texture 0" block (lines 234-245), one
constructor per `xgu_set_texture_*` call of `xgu.h`, each with the texture unit
and the arguments that vary with the format or the surface. The arguments that
are the same literal on both paths (context DMA 2, border source, dimensionality
2, one mipmap level, depth size 0, the clamp modes, the enable flag and LOD
bounds) and the physical address of the buffer are left out. -/
inductive XguCommand where
  | set_texture_offset (unit : Nat)
  | set_texture_format (unit : Nat) (format : XguTexFormatColor) (u_size v_size : Nat)
  | set_texture_address (unit : Nat)
  | set_texture_control0 (unit : Nat)
  | set_texture_control1 (unit : Nat) (pitch : Nat)
  | set_texture_image_rect (unit : Nat) (w h : Nat)
  deriving DecidableEq, Repr

/-- Source, lines 234-245: the commands that bind texture 0 for row `e` of the
table and the converted surface `dst_txt`. `eax_u` and `eax_v` are the register
contents the two `bsf` calls fall back to on a zero argument. -/
def texture0_binding (eax_u eax_v : Nat) (e : FormatInfo) (dst_txt : SDL_Surface) :
    List XguCommand :=
  XguCommand.set_texture_offset 0 ::
    (if e.XguSwizzled then
      [ XguCommand.set_texture_format 0 e.XguFormat
          (bsf eax_u (dst_txt.w : Int)) (bsf eax_v (dst_txt.h : Int)),
        XguCommand.set_texture_address 0,
        XguCommand.set_texture_control0 0 ]
    else
      [ XguCommand.set_texture_format 0 e.XguFormat 0 0,
        XguCommand.set_texture_control0 0,
        XguCommand.set_texture_control1 0 dst_txt.pitch,
        XguCommand.set_texture_image_rect 0 dst_txt.w dst_txt.h ])

/-! ## Start-up and the render loop -/

/-- The variables of `main` that the render loop reads or writes and that depend
on the selected format. `filled_from` and `uv_from` are history variables, not
program variables: the table index used by the most recent conversion and fill
of `dst_tex_buf`, and by the most recent texture-coordinate rewrite. -/
structure LoopState where
  format_map_index : Nat
  toggleFormat : Bool
  dst_txt : SDL_Surface
  dst_tex_buf : Mem
  alloc_vertices : List Vertex
  filled_from : Nat
  uv_from : Nat

/-- What `main` receives from outside before the loop: the result of
`nxMountDrive`, the result of `IMG_Load` (`none` for a null pointer), the vertex
table of `verts.h`, the indeterminate content of the uninitialised local
`toggleFormat` (line 70), and the content of the freshly allocated buffer. -/
structure Boot where
  mount_ok : Bool
  loaded : Option SDL_Surface
  vertices : List Vertex
  toggleFormat : Bool
  fresh_buf : Mem

/-- How start-up ends: `return 1` (lines 125-129 and 153-157), an assertion
failure (lines 160-161), or entry into the render loop. -/
inductive Startup where
  | exit_1
  | assert_failed
  | running (s : LoopState)

/-- Source, lines 163-182: the state on loop entry, after the first conversion,
fill and texture-coordinate rewrite with `format_map_index = 0`. -/
def loop_entry (reencode : SDL_Surface → SDL_PixelFormatEnum → Mem) (src_tex : SDL_Surface)
    (b : Boot) : LoopState :=
  let format_map_index := 0
  let dst_txt := SDL_ConvertSurfaceFormat reencode src_tex (format_map_at format_map_index).SdlFormat
  { format_map_index := format_map_index
    toggleFormat := b.toggleFormat
    dst_txt := dst_txt
    dst_tex_buf := fill_texture (format_map_at format_map_index) dst_txt b.fresh_buf
    alloc_vertices := normalize_texcoords (format_map_at format_map_index) b.vertices
    filled_from := format_map_index
    uv_from := format_map_index }

/-- Source, lines 121-182: `main` up to the loop. -/
def main_startup (reencode : SDL_Surface → SDL_PixelFormatEnum → Mem) (b : Boot) : Startup :=
  if !b.mount_ok then Startup.exit_1
  else
    match b.loaded with
    | none => Startup.exit_1
    | some src_tex =>
      if !is_pow2 (src_tex.w : Int) then Startup.assert_failed
      else if !is_pow2 (src_tex.h : Int) then Startup.assert_failed
      else Startup.running (loop_entry reencode src_tex b)

/-- What `input_button_down` answers on one tick for the two buttons the loop
asks about. -/
structure PadState where
  start : Bool
  a : Bool
  deriving DecidableEq, Repr

/-- Source, lines 198-216: the body of `if (toggleFormat)`, which advances the
index, converts and refills the texture buffer, and rewrites the texture
coordinates. -/
def switch_format (reencode : SDL_Surface → SDL_PixelFormatEnum → Mem) (src_tex : SDL_Surface)
    (s : LoopState) : LoopState :=
  let format_map_index := next_format_index format_map.length s.format_map_index
  let dst_txt := SDL_ConvertSurfaceFormat reencode src_tex (format_map_at format_map_index).SdlFormat
  { s with
    format_map_index := format_map_index
    dst_txt := dst_txt
    dst_tex_buf := fill_texture (format_map_at format_map_index) dst_txt s.dst_tex_buf
    alloc_vertices := normalize_texcoords (format_map_at format_map_index) s.alloc_vertices
    filled_from := format_map_index
    uv_from := format_map_index }

/-- Source, lines 190-219: the input handling of one loop iteration. `none` is the
`break` on START; otherwise the state with which the frame is then built. -/
def loop_tick (reencode : SDL_Surface → SDL_PixelFormatEnum → Mem) (src_tex : SDL_Surface)
    (pad : PadState) (s : LoopState) : Option LoopState :=
  if pad.start then none
  else if pad.a then
    if s.toggleFormat then
      some { switch_format reencode src_tex s with toggleFormat := false }
    else some { s with toggleFormat := false }
  else some { s with toggleFormat := true }

/-- The loop over a finite sequence of pad states: it stops at the first START,
and yields the state reached. -/
def run_loop (reencode : SDL_Surface → SDL_PixelFormatEnum → Mem) (src_tex : SDL_Surface) :
    List PadState → LoopState → LoopState
  | [], s => s
  | pad :: rest, s =>
    match loop_tick reencode src_tex pad s with
    | none => s
    | some s1 => run_loop reencode src_tex rest s1

/-- Source, lines 234-245 inside the loop: the texture binding of the frame built
in state `s`. -/
def frame_texture0 (eax_u eax_v : Nat) (s : LoopState) : List XguCommand :=
  texture0_binding eax_u eax_v (format_map_at s.format_map_index) s.dst_txt

/-- The postcondition of the texture-coordinate rewrite on one component, for row
`e` of the table: a component that tested non-zero before is the constant chosen
by the swizzle flag afterwards, and a component that tested zero is unchanged
and still tests zero. -/
def uv_component_post (e : FormatInfo) (before after : Nat) : Prop :=
  (f32_nonzero before = true → after = if e.XguSwizzled then f32_one else f32_256) ∧
  (f32_nonzero before = false → after = before ∧ f32_nonzero after = false)

/-- The postcondition of the rewrite on one vertex: both texture-coordinate
components satisfy `uv_component_post`. -/
def uv_vertex_post (e : FormatInfo) (before after : Vertex) : Prop :=
  uv_component_post e before.texcoord.1 after.texcoord.1 ∧
  uv_component_post e before.texcoord.2 after.texcoord.2

/-! ## Concrete inputs used to evaluate the model -/

/-- A buffer of zero bytes. -/
def zero_mem : Mem := fun _ => 0

/-- A re-encoding that yields the source bytes for every target encoding. -/
def sample_reencode : SDL_Surface → SDL_PixelFormatEnum → Mem := fun src _ => src.pixels

/-- A loaded 32-bit image of the given dimensions whose byte at offset `a` is
`a % 256`. -/
def sample_image (w h : Nat) : SDL_Surface :=
  { w := w, h := h, pitch := w * 4, BytesPerPixel := 4, pixels := fun a => a % 256 }

/-- A quad whose texture coordinates are the corners of the unit square; the
positions and normals are zero. -/
def sample_vertices : List Vertex :=
  [ ⟨(0, 0, 0), (0, 0), (0, 0, 0)⟩,
    ⟨(0, 0, 0), (f32_one, 0), (0, 0, 0)⟩,
    ⟨(0, 0, 0), (f32_one, f32_one), (0, 0, 0)⟩,
    ⟨(0, 0, 0), (0, f32_one), (0, 0, 0)⟩ ]

/-- A start-up in which the mount and the load succeed, with the given image and
the given content of the uninitialised `toggleFormat`. -/
def sample_boot (img : SDL_Surface) (toggleFormat : Bool) : Boot :=
  { mount_ok := true
    loaded := some img
    vertices := sample_vertices
    toggleFormat := toggleFormat
    fresh_buf := zero_mem }

/-! ## Powers of two: `is_pow2` and `bsf` -/

/-- The bit trick on naturals: for `n ≥ 1`, `n & (n - 1)` is zero exactly when `n`
is a power of two. -/
theorem land_pred_eq_zero_iff (n : Nat) (hn : 1 ≤ n) :
    n &&& (n - 1) = 0 ↔ ∃ k, n = 2 ^ k := by
  induction n using Nat.strong_induction_on with
  | _ n ih =>
    rcases Nat.even_or_odd' n with ⟨m, rfl | rfl⟩
    · have hm : 1 ≤ m := by omega
      have h1 : (2 * m) &&& (2 * m - 1) = 2 * (m &&& (m - 1)) := by
        have e1 : 2 * m = Nat.bit false m := by simp [Nat.bit_val]
        have e2 : 2 * m - 1 = Nat.bit true (m - 1) := by simp [Nat.bit_val]; omega
        rw [e2, e1, Nat.land_bit]; simp [Nat.bit_val]
      rw [h1]
      constructor
      · intro h
        have h0 : m &&& (m - 1) = 0 := by omega
        obtain ⟨k, hk⟩ := (ih m (by omega) hm).1 h0
        exact ⟨k + 1, by rw [hk, pow_succ]; ring⟩
      · rintro ⟨k, hk⟩
        cases k with
        | zero => simp at hk
        | succ k =>
          have hmk : m = 2 ^ k := by rw [pow_succ] at hk; omega
          have := (ih m (by omega) hm).2 ⟨k, hmk⟩
          omega
    · have h1 : (2 * m + 1) &&& (2 * m + 1 - 1) = 2 * m := by
        have e1 : 2 * m + 1 = Nat.bit true m := by simp [Nat.bit_val]
        have e2 : 2 * m + 1 - 1 = Nat.bit false m := by simp [Nat.bit_val]
        rw [e2, e1, Nat.land_bit]; simp [Nat.bit_val]
      rw [h1]
      constructor
      · intro h
        exact ⟨0, by simp; omega⟩
      · rintro ⟨k, hk⟩
        cases k with
        | zero => simp at hk; omega
        | succ k => rw [pow_succ] at hk; omega

/-- On a non-negative `int`, `is_pow2` is the bit trick on its value. -/
theorem is_pow2_natCast (n : Nat) (h1 : 1 ≤ n) (h2 : n < 2147483648) :
    is_pow2 (n : Int) = (n &&& (n - 1) == 0) := by
  have e1 : u32 (n : Int) = n := by
    unfold u32
    rw [Int.emod_eq_of_lt (by omega) (by omega)]
    simp
  have e2 : u32 ((n : Int) - 1) = n - 1 := by
    unfold u32
    rw [Int.emod_eq_of_lt (by omega) (by omega)]
    omega
  unfold is_pow2
  rw [e1, e2]
  rfl

/-- For a positive `int`, `is_pow2` answers whether it is a power of two. -/
theorem is_pow2_pos_iff (n : Nat) (h1 : 1 ≤ n) (h2 : n < 2147483648) :
    is_pow2 (n : Int) = true ↔ ∃ k, n = 2 ^ k := by
  rw [is_pow2_natCast n h1 h2, beq_iff_eq]
  exact land_pred_eq_zero_iff n h1

/-- For a negative `int` other than `INT_MIN`, `is_pow2` answers no. -/
theorem is_pow2_neg (val : Int) (h1 : -2147483648 < val) (h2 : val < 0) :
    is_pow2 val = false := by
  obtain ⟨n, hn⟩ : ∃ n : Nat, (n : Int) = val + 4294967296 := ⟨(val + 4294967296).toNat, by omega⟩
  have e1 : u32 val = n := by
    unfold u32
    have : val % 4294967296 = (n : Int) := by omega
    rw [this]; simp
  have e2 : u32 (val - 1) = n - 1 := by
    unfold u32
    have : (val - 1) % 4294967296 = ((n - 1 : Nat) : Int) := by omega
    rw [this]; simp
  have hlo : 2 ^ 31 < n := by norm_num; omega
  have hhi : n < 2 ^ 32 := by norm_num; omega
  have hne : n &&& (n - 1) ≠ 0 := by
    intro h0
    obtain ⟨k, hk⟩ := (land_pred_eq_zero_iff n (by omega)).1 h0
    rw [hk] at hlo hhi
    have a := (Nat.pow_lt_pow_iff_right (by norm_num : 1 < 2)).1 hlo
    have b := (Nat.pow_lt_pow_iff_right (by norm_num : 1 < 2)).1 hhi
    omega
  unfold is_pow2
  rw [e1, e2]
  exact beq_false_of_ne hne

/-- The whole behaviour of `is_pow2` on 32-bit `int`s: it answers yes on the powers
of two and, beyond them, on `0` and on `INT_MIN`. -/
theorem is_pow2_iff (val : Int) (h1 : -2147483648 ≤ val) (h2 : val < 2147483648) :
    is_pow2 val = true ↔ (val = 0 ∨ val = -2147483648 ∨ ∃ k : Nat, val = 2 ^ k) := by
  rcases lt_trichotomy val 0 with hneg | rfl | hpos
  · rcases eq_or_lt_of_le h1 with hmin | hgt
    · subst hmin
      exact ⟨fun _ => Or.inr (Or.inl rfl), fun _ => by decide⟩
    · rw [is_pow2_neg val hgt hneg]
      constructor
      · intro h; cases h
      · rintro (h | h | ⟨k, hk⟩)
        · omega
        · omega
        · have : (0 : Int) < 2 ^ k := by positivity
          omega
  · exact ⟨fun _ => Or.inl rfl, fun _ => by decide⟩
  · obtain ⟨n, rfl⟩ : ∃ n : Nat, val = (n : Int) := ⟨val.toNat, by omega⟩
    rw [is_pow2_pos_iff n (by omega) (by omega)]
    constructor
    · rintro ⟨k, hk⟩
      exact Or.inr (Or.inr ⟨k, by rw [hk]; push_cast; rfl⟩)
    · rintro (h | h | ⟨k, hk⟩)
      · omega
      · omega
      · exact ⟨k, by exact_mod_cast hk⟩

/-- C6: `is_pow2` is documented as checking for a power of two, yet it answers
`true` on `0`, which is `2^k` for no `k`. -/
theorem is_pow2_accepts_zero :
    is_pow2 0 = true ∧ ¬ ∃ k : Nat, (0 : Int) = 2 ^ k := by
  refine ⟨by decide, ?_⟩
  rintro ⟨k, hk⟩
  have : (0 : Int) < 2 ^ k := by positivity
  omega

/-- The scan finds bit `k` of the pattern `2^k` when it has at least `k + 1`
positions to look at. -/
theorem bsf_scan_two_pow (k : Nat) : ∀ fuel idx, k < fuel → bsf_scan fuel (2 ^ k) idx = idx + k := by
  induction k with
  | zero =>
    intro fuel idx h
    cases fuel with
    | zero => omega
    | succ f => simp [bsf_scan]
  | succ k ih =>
    intro fuel idx h
    cases fuel with
    | zero => omega
    | succ f =>
      have h2 : 2 ^ (k + 1) % 2 = 0 := by rw [pow_succ]; omega
      have h3 : 2 ^ (k + 1) / 2 = 2 ^ k := by rw [pow_succ]; omega
      simp only [bsf_scan, h2, h3]
      rw [if_neg (by omega), ih f (idx + 1) (by omega)]
      omega

/-- On a positive dimension that passes `is_pow2`, `bsf` is its base-2 logarithm,
whatever the register held. -/
theorem bsf_is_log2 (eax n : Nat) (h1 : 1 ≤ n) (h2 : n < 2147483648)
    (hp : is_pow2 (n : Int) = true) : 2 ^ bsf eax (n : Int) = n := by
  obtain ⟨k, rfl⟩ := (is_pow2_pos_iff n h1 h2).1 hp
  have hk : k < 31 := by
    have : 2 ^ k < 2 ^ 31 := by norm_num; omega
    exact (Nat.pow_lt_pow_iff_right (by norm_num : 1 < 2)).1 this
  have e1 : u32 ((2 ^ k : Nat) : Int) = 2 ^ k := by
    unfold u32
    rw [Int.emod_eq_of_lt (by positivity) (by omega)]
    exact Int.toNat_ofNat _
  unfold bsf
  rw [e1, if_neg (by omega), bsf_scan_two_pow k 32 0 (by omega)]
  simp

/-! ## The format index -/

theorem format_map_length : format_map.length = 18 := by decide

theorem next_format_index_lt (count i : Nat) (h : 0 < count) :
    next_format_index count i < count := Nat.mod_lt _ h

/-- The C evaluation of line 200 in 32-bit unsigned arithmetic is the mathematical
one for an index inside a table of fewer than `2^32` rows. -/
theorem next_format_index_unsigned (count i : Nat) (hi : i < count) (hc : count < 4294967296) :
    ((i + 1) % 4294967296) % count = next_format_index count i := by
  unfold next_format_index
  rw [Nat.mod_eq_of_lt (by omega : i + 1 < 4294967296)]

theorem loop_tick_index_lt (reencode : SDL_Surface → SDL_PixelFormatEnum → Mem)
    (src_tex : SDL_Surface) (pad : PadState) (s s1 : LoopState)
    (hs : s.format_map_index < 18) (h : loop_tick reencode src_tex pad s = some s1) :
    s1.format_map_index < 18 := by
  have hn : next_format_index format_map.length s.format_map_index < 18 := by
    have := next_format_index_lt format_map.length s.format_map_index (by decide)
    rwa [format_map_length] at this
  unfold loop_tick at h
  split_ifs at h <;> simp only [Option.some.injEq] at h <;> subst h
  · exact hn
  · exact hs
  · exact hs

theorem run_loop_index_lt (reencode : SDL_Surface → SDL_PixelFormatEnum → Mem)
    (src_tex : SDL_Surface) (pads : List PadState) :
    ∀ s : LoopState, s.format_map_index < 18 →
      (run_loop reencode src_tex pads s).format_map_index < 18 := by
  induction pads with
  | nil => intro s hs; exact hs
  | cons pad rest ih =>
    intro s hs
    unfold run_loop
    cases h : loop_tick reencode src_tex pad s with
    | none => exact hs
    | some s1 => exact ih s1 (loop_tick_index_lt reencode src_tex pad s s1 hs h)

/-- C1: the table has 18 rows, the loop is entered with `format_map_index = 0`, and
after any sequence of ticks, whatever the pad reports on each and whatever
`toggleFormat` held at first, `format_map_index` is below 18. -/
theorem format_map_index_in_range (reencode : SDL_Surface → SDL_PixelFormatEnum → Mem)
    (src_tex : SDL_Surface) (b : Boot) (pads : List PadState) :
    format_map.length = 18 ∧
    (loop_entry reencode src_tex b).format_map_index = 0 ∧
    (run_loop reencode src_tex pads (loop_entry reencode src_tex b)).format_map_index < 18 :=
  ⟨format_map_length, rfl,
    run_loop_index_lt reencode src_tex pads _ (by show (0 : Nat) < 18; omega)⟩

/-! ## The cycling law -/

theorem next_format_index_iterate (count : Nat) (k i : Nat) :
    (next_format_index count)^[k] i % count = (i + k) % count := by
  induction k generalizing i with
  | zero => simp
  | succ k ih =>
    rw [Function.iterate_succ_apply, ih]
    unfold next_format_index
    rw [Nat.mod_add_mod]
    congr 1
    omega

theorem next_format_index_iterate_succ (count : Nat) (k i : Nat) :
    (next_format_index count)^[k + 1] i = (i + k + 1) % count := by
  have hstep : ∀ n, next_format_index count n = (n + 1) % count := fun _ => rfl
  rw [Function.iterate_succ_apply', hstep, ← Nat.mod_add_mod, next_format_index_iterate,
    Nat.mod_add_mod]

/-- C2: from any index `i` of a table of `count ≥ 1` rows, the `count` indices
reached by 1, 2, ..., `count` advances contain every index below `count`
exactly once, and the last of them is `i` again; with two rows and start 0 the
indices before and after three advances are 0, 1, 0, 1. -/
theorem advance_cycles_through_all (count i : Nat) (hc : 1 ≤ count) (hi : i < count) :
    (∀ j, j < count →
      List.count j ((List.range count).map fun k => (next_format_index count)^[k + 1] i) = 1) ∧
    ((List.range count).map fun k => (next_format_index count)^[k + 1] i).length = count ∧
    (next_format_index count)^[count] i = i ∧
    (List.range 4).map (fun k => (next_format_index 2)^[k] 0) = [0, 1, 0, 1] := by
  have hmap : ((List.range count).map fun k => (next_format_index count)^[k + 1] i)
      = (List.range count).map fun k => (i + k + 1) % count := by
    apply List.map_congr_left
    intro k _
    exact next_format_index_iterate_succ count k i
  have hinj : ∀ a, a < count → ∀ b, b < count →
      (i + a + 1) % count = (i + b + 1) % count → a = b := by
    intro a ha b hb hab
    have h1 : (i + 1 + a) ≡ (i + 1 + b) [MOD count] := by
      unfold Nat.ModEq
      rw [show i + 1 + a = i + a + 1 by omega, show i + 1 + b = i + b + 1 by omega]
      exact hab
    have h2 : a ≡ b [MOD count] := Nat.ModEq.add_left_cancel' (i + 1) h1
    unfold Nat.ModEq at h2
    rwa [Nat.mod_eq_of_lt ha, Nat.mod_eq_of_lt hb] at h2
  have hnodup : ((List.range count).map fun k => (i + k + 1) % count).Nodup := by
    apply List.Nodup.map_on _ (List.nodup_range count)
    intro a ha b hb hab
    exact hinj a (List.mem_range.1 ha) b (List.mem_range.1 hb) hab
  refine ⟨?_, by simp, ?_, by decide⟩
  · intro j hj
    rw [hmap]
    apply List.count_eq_one_of_mem hnodup
    rw [List.mem_map]
    refine ⟨(j + count - 1 - i) % count, List.mem_range.2 (Nat.mod_lt _ (by omega)), ?_⟩
    have e : i + (j + count - 1 - i) % count + 1 = (j + count - 1 - i) % count + (i + 1) := by
      omega
    rw [e, Nat.mod_add_mod, show j + count - 1 - i + (i + 1) = j + count by omega,
      Nat.add_mod_right, Nat.mod_eq_of_lt hj]
  · cases count with
    | zero => omega
    | succ c =>
      rw [next_format_index_iterate_succ]
      rw [show i + c + 1 = i + (c + 1) by omega, Nat.add_mod_right, Nat.mod_eq_of_lt hi]

theorem advance_cycles_through_all_witness :
    (1 ≤ 18 ∧ 5 < 18) ∧
    ((∀ j, j < 18 →
      List.count j ((List.range 18).map fun k => (next_format_index 18)^[k + 1] 5) = 1) ∧
    ((List.range 18).map fun k => (next_format_index 18)^[k + 1] 5).length = 18 ∧
    (next_format_index 18)^[18] 5 = 5 ∧
    (List.range 4).map (fun k => (next_format_index 2)^[k] 0) = [0, 1, 0, 1]) :=
  ⟨by decide, advance_cycles_through_all 18 5 (by decide) (by decide)⟩

/-! ## Edge detection on the format button -/

/-- After a tick that did not leave the loop, `toggleFormat` records that the
format button was up on that tick. -/
theorem loop_tick_toggleFormat (reencode : SDL_Surface → SDL_PixelFormatEnum → Mem)
    (src_tex : SDL_Surface) (pad : PadState) (s s1 : LoopState)
    (h : loop_tick reencode src_tex pad s = some s1) : s1.toggleFormat = !pad.a := by
  unfold loop_tick at h
  split_ifs at h with h1 h2 h3 <;> simp only [Option.some.injEq] at h <;> subst h <;> simp [*]

/-- A tick advances the index by one step exactly when the format button is down
and `toggleFormat` is set, and leaves it alone otherwise. -/
theorem loop_tick_index (reencode : SDL_Surface → SDL_PixelFormatEnum → Mem)
    (src_tex : SDL_Surface) (pad : PadState) (s s1 : LoopState)
    (h : loop_tick reencode src_tex pad s = some s1) :
    s1.format_map_index =
      if pad.a = true ∧ s.toggleFormat = true then
        next_format_index format_map.length s.format_map_index
      else s.format_map_index := by
  unfold loop_tick at h
  split_ifs at h with h1 h2 h3 <;> simp only [Option.some.injEq] at h <;> subst h <;>
    simp [*, switch_format]

/-- From the second tick on the advance is edge-triggered: the index moves one step
on a tick where the format button is down and was up on the tick before, and
stays where it was on every other tick. -/
theorem advance_on_fresh_press_after_first_tick
    (reencode : SDL_Surface → SDL_PixelFormatEnum → Mem) (src_tex : SDL_Surface)
    (prev pad : PadState) (s s1 s2 : LoopState)
    (h1 : loop_tick reencode src_tex prev s = some s1)
    (h2 : loop_tick reencode src_tex pad s1 = some s2) :
    s2.format_map_index =
      if pad.a = true ∧ prev.a = false then
        next_format_index format_map.length s1.format_map_index
      else s1.format_map_index := by
  rw [loop_tick_index reencode src_tex pad s1 s2 h2,
    loop_tick_toggleFormat reencode src_tex prev s s1 h1]
  cases prev.a <;> simp

/-- While the format button is held and `toggleFormat` is clear, further ticks
leave the index alone. -/
theorem held_button_keeps_index (reencode : SDL_Surface → SDL_PixelFormatEnum → Mem)
    (src_tex : SDL_Surface) (n : Nat) :
    ∀ s : LoopState, s.toggleFormat = false →
      (run_loop reencode src_tex (List.replicate n ⟨false, true⟩) s).format_map_index
        = s.format_map_index := by
  induction n with
  | zero => intro s _; rfl
  | succ n ih =>
    intro s hs
    have ht : loop_tick reencode src_tex ⟨false, true⟩ s = some { s with toggleFormat := false } := by
      simp [loop_tick, hs]
    simp only [List.replicate_succ, run_loop, ht]
    exact ih _ rfl

/-- Holding the format button down over `n + 1` consecutive ticks, the first of
them a fresh press (`toggleFormat` set), advances the index exactly once. -/
theorem held_button_advances_once (reencode : SDL_Surface → SDL_PixelFormatEnum → Mem)
    (src_tex : SDL_Surface) (n : Nat) (s : LoopState) (hs : s.toggleFormat = true) :
    (run_loop reencode src_tex (List.replicate (n + 1) ⟨false, true⟩) s).format_map_index
      = next_format_index format_map.length s.format_map_index := by
  have ht : loop_tick reencode src_tex ⟨false, true⟩ s
      = some { switch_format reencode src_tex s with toggleFormat := false } := by
    simp [loop_tick, hs]
  simp only [List.replicate_succ, run_loop, ht]
  rw [held_button_keeps_index reencode src_tex n _ rfl]
  rfl

/-- C3: the local `toggleFormat` is read on the first tick without ever having
been written. When it happens to hold `false`, a press of the format button on
the first tick does not advance the index (it stays 0), although the button
was not down on any earlier tick; when it holds `true` the same press advances
it to 1. -/
theorem first_tick_press_ignored_when_toggleFormat_unset :
    (run_loop sample_reencode (sample_image 2 2) [⟨false, true⟩]
        (loop_entry sample_reencode (sample_image 2 2)
          (sample_boot (sample_image 2 2) false))).format_map_index = 0 ∧
    (run_loop sample_reencode (sample_image 2 2) [⟨false, true⟩]
        (loop_entry sample_reencode (sample_image 2 2)
          (sample_boot (sample_image 2 2) true))).format_map_index = 1 := by
  constructor <;> rfl

/-! ## Texture-coordinate normalisation -/

theorem f32_nonzero_one : f32_nonzero f32_one = true := by decide

theorem f32_nonzero_256 : f32_nonzero f32_256 = true := by decide

theorem normalize_texcoords_post (e : FormatInfo) (vs : List Vertex) :
    List.Forall₂ (uv_vertex_post e) vs (normalize_texcoords e vs) := by
  unfold normalize_texcoords
  rw [List.forall₂_map_right_iff]
  apply List.forall₂_same.2
  intro v _
  unfold uv_vertex_post uv_component_post
  refine ⟨⟨?_, ?_⟩, ⟨?_, ?_⟩⟩ <;> intro h <;> simp [h]

/-- The rewrite forgets an earlier rewrite: running it for row `e2` after row `e1`
gives what running it for `e2` alone gives. -/
theorem normalize_texcoords_twice (e1 e2 : FormatInfo) (vs : List Vertex) :
    normalize_texcoords e2 (normalize_texcoords e1 vs) = normalize_texcoords e2 vs := by
  unfold normalize_texcoords
  rw [List.map_map]
  apply List.map_congr_left
  intro v _
  have h1 := f32_nonzero_one
  have h2 := f32_nonzero_256
  simp only [Function.comp]
  cases e1.XguSwizzled <;> cases e2.XguSwizzled <;>
    cases ha : f32_nonzero v.texcoord.1 <;> cases hb : f32_nonzero v.texcoord.2 <;>
    simp [ha, hb, h1, h2]

/-- C4: for every vertex array and every row of the table, the rewrite leaves each
texture-coordinate component that was non-zero equal to `1.0` for a swizzled
row and to `256.0` for a linear row, and each zero component zero; this is what
the first conversion (row 0) and the conversion on a format advance (the row
just selected) do to the vertices. -/
theorem texcoords_normalised (reencode : SDL_Surface → SDL_PixelFormatEnum → Mem)
    (src_tex : SDL_Surface) (b : Boot) (s : LoopState) (e : FormatInfo) (vs : List Vertex) :
    List.Forall₂ (uv_vertex_post e) vs (normalize_texcoords e vs) ∧
    List.Forall₂ (uv_vertex_post (format_map_at 0)) b.vertices
      (loop_entry reencode src_tex b).alloc_vertices ∧
    List.Forall₂
      (uv_vertex_post (format_map_at (switch_format reencode src_tex s).format_map_index))
      s.alloc_vertices (switch_format reencode src_tex s).alloc_vertices :=
  ⟨normalize_texcoords_post e vs, normalize_texcoords_post _ _, normalize_texcoords_post _ _⟩

/-! ## Agreement of conversion, texture coordinates and binding -/

/-- The facts that tie a loop state to the row at `format_map_index`: the history
variables name that row, the converted surface is the source re-encoded for it,
the texture buffer is some earlier content overwritten by the fill for it, and
the vertices are the table of `verts.h` rewritten for it. -/
theorem switch_format_consistent (reencode : SDL_Surface → SDL_PixelFormatEnum → Mem)
    (src_tex : SDL_Surface) (b : Boot) (s : LoopState)
    (hv : ∃ e0, s.alloc_vertices = normalize_texcoords e0 b.vertices) :
    (switch_format reencode src_tex s).filled_from
        = (switch_format reencode src_tex s).format_map_index ∧
    (switch_format reencode src_tex s).uv_from
        = (switch_format reencode src_tex s).format_map_index ∧
    (switch_format reencode src_tex s).dst_txt
        = SDL_ConvertSurfaceFormat reencode src_tex
            (format_map_at (switch_format reencode src_tex s).format_map_index).SdlFormat ∧
    (∃ prev, (switch_format reencode src_tex s).dst_tex_buf
        = fill_texture (format_map_at (switch_format reencode src_tex s).format_map_index)
            (switch_format reencode src_tex s).dst_txt prev) ∧
    (switch_format reencode src_tex s).alloc_vertices
        = normalize_texcoords (format_map_at (switch_format reencode src_tex s).format_map_index)
            b.vertices := by
  obtain ⟨e0, he0⟩ := hv
  refine ⟨rfl, rfl, rfl, ⟨s.dst_tex_buf, rfl⟩, ?_⟩
  show normalize_texcoords _ s.alloc_vertices = _
  rw [he0, normalize_texcoords_twice]
  rfl

theorem run_loop_consistent (reencode : SDL_Surface → SDL_PixelFormatEnum → Mem)
    (src_tex : SDL_Surface) (b : Boot) (pads : List PadState) :
    ∀ s : LoopState,
      (s.filled_from = s.format_map_index ∧
       s.uv_from = s.format_map_index ∧
       s.dst_txt = SDL_ConvertSurfaceFormat reencode src_tex
          (format_map_at s.format_map_index).SdlFormat ∧
       (∃ prev, s.dst_tex_buf = fill_texture (format_map_at s.format_map_index) s.dst_txt prev) ∧
       s.alloc_vertices = normalize_texcoords (format_map_at s.format_map_index) b.vertices) →
      ((run_loop reencode src_tex pads s).filled_from
          = (run_loop reencode src_tex pads s).format_map_index ∧
       (run_loop reencode src_tex pads s).uv_from
          = (run_loop reencode src_tex pads s).format_map_index ∧
       (run_loop reencode src_tex pads s).dst_txt = SDL_ConvertSurfaceFormat reencode src_tex
          (format_map_at (run_loop reencode src_tex pads s).format_map_index).SdlFormat ∧
       (∃ prev, (run_loop reencode src_tex pads s).dst_tex_buf
          = fill_texture (format_map_at (run_loop reencode src_tex pads s).format_map_index)
              (run_loop reencode src_tex pads s).dst_txt prev) ∧
       (run_loop reencode src_tex pads s).alloc_vertices
          = normalize_texcoords (format_map_at (run_loop reencode src_tex pads s).format_map_index)
              b.vertices) := by
  induction pads with
  | nil => intro s hs; exact hs
  | cons pad rest ih =>
    intro s hs
    unfold run_loop
    cases h : loop_tick reencode src_tex pad s with
    | none => exact hs
    | some s1 =>
      apply ih s1
      unfold loop_tick at h
      split_ifs at h with h1 h2 h3 <;> simp only [Option.some.injEq] at h <;> subst h
      · exact switch_format_consistent reencode src_tex b s ⟨_, hs.2.2.2.2⟩
      · exact hs
      · exact hs

/-- C10: in every state in which a frame is built, after any sequence of ticks and
pad states and whatever `toggleFormat` held at first, the row that the last
conversion and fill used, the row that the last texture-coordinate rewrite
used and the row at `format_map_index` are the same row; accordingly the
converted surface, the texture buffer and the vertices are those produced for
the row at `format_map_index`, which is the row the frame binds. -/
theorem conversion_and_binding_agree (reencode : SDL_Surface → SDL_PixelFormatEnum → Mem)
    (src_tex : SDL_Surface) (b : Boot) (pads : List PadState) (eax_u eax_v : Nat) :
    (run_loop reencode src_tex pads (loop_entry reencode src_tex b)).filled_from
      = (run_loop reencode src_tex pads (loop_entry reencode src_tex b)).format_map_index ∧
    (run_loop reencode src_tex pads (loop_entry reencode src_tex b)).uv_from
      = (run_loop reencode src_tex pads (loop_entry reencode src_tex b)).format_map_index ∧
    (run_loop reencode src_tex pads (loop_entry reencode src_tex b)).dst_txt
      = SDL_ConvertSurfaceFormat reencode src_tex
          (format_map_at
            (run_loop reencode src_tex pads
              (loop_entry reencode src_tex b)).format_map_index).SdlFormat ∧
    (∃ prev, (run_loop reencode src_tex pads (loop_entry reencode src_tex b)).dst_tex_buf
      = fill_texture
          (format_map_at
            (run_loop reencode src_tex pads (loop_entry reencode src_tex b)).format_map_index)
          (run_loop reencode src_tex pads (loop_entry reencode src_tex b)).dst_txt prev) ∧
    (run_loop reencode src_tex pads (loop_entry reencode src_tex b)).alloc_vertices
      = normalize_texcoords
          (format_map_at
            (run_loop reencode src_tex pads (loop_entry reencode src_tex b)).format_map_index)
          b.vertices ∧
    frame_texture0 eax_u eax_v (run_loop reencode src_tex pads (loop_entry reencode src_tex b))
      = texture0_binding eax_u eax_v
          (format_map_at
            (run_loop reencode src_tex pads (loop_entry reencode src_tex b)).filled_from)
          (run_loop reencode src_tex pads (loop_entry reencode src_tex b)).dst_txt := by
  have h := run_loop_consistent reencode src_tex b pads (loop_entry reencode src_tex b)
    ⟨rfl, rfl, rfl, ⟨b.fresh_buf, rfl⟩, rfl⟩
  refine ⟨h.1, h.2.1, h.2.2.1, h.2.2.2.1, h.2.2.2.2, ?_⟩
  unfold frame_texture0
  rw [h.1]

/-! ## The power-of-two assertions at start-up -/

/-- With the mount and the load successful, an image of positive dimensions of
which one is not a power of two stops start-up at the assertions: no loop
state, hence no converted surface and no filled texture buffer, is produced. -/
theorem startup_asserts_on_positive_non_pow2
    (reencode : SDL_Surface → SDL_PixelFormatEnum → Mem) (b : Boot) (src_tex : SDL_Surface)
    (hm : b.mount_ok = true) (hl : b.loaded = some src_tex)
    (hw : 1 ≤ src_tex.w ∧ src_tex.w < 2147483648) (hh : 1 ≤ src_tex.h ∧ src_tex.h < 2147483648)
    (hn : (¬ ∃ k, src_tex.w = 2 ^ k) ∨ (¬ ∃ k, src_tex.h = 2 ^ k)) :
    main_startup reencode b = Startup.assert_failed := by
  unfold main_startup
  simp only [hm, hl, Bool.not_true, Bool.false_eq_true, if_false]
  by_cases hpw : is_pow2 (src_tex.w : Int) = true
  · have hwk := (is_pow2_pos_iff _ hw.1 hw.2).1 hpw
    have hhk : ¬ is_pow2 (src_tex.h : Int) = true := fun hph =>
      hn.elim (fun h => h hwk) (fun h => h ((is_pow2_pos_iff _ hh.1 hh.2).1 hph))
    simp [hpw, hhk]
  · simp [hpw]

/-- A 100 by 100 image stops start-up at the assertions. -/
theorem startup_asserts_on_100_by_100 :
    main_startup sample_reencode (sample_boot (sample_image 100 100) false)
      = Startup.assert_failed := by
  rfl

/-- C5: an image of width 0 and height 0 has dimensions that are not powers of two,
yet both assertions pass on it (`is_pow2(0)` is true) and start-up goes on to
convert the surface and fill the texture buffer, entering the loop. -/
theorem startup_accepts_zero_sized_image :
    (¬ ∃ k : Nat, (sample_image 0 0).w = 2 ^ k) ∧
    (¬ ∃ k : Nat, (sample_image 0 0).h = 2 ^ k) ∧
    main_startup sample_reencode (sample_boot (sample_image 0 0) false)
      = Startup.running
          (loop_entry sample_reencode (sample_image 0 0) (sample_boot (sample_image 0 0) false)) := by
  have h0 : ¬ ∃ k : Nat, (0 : Nat) = 2 ^ k := by
    rintro ⟨k, hk⟩
    have : 0 < 2 ^ k := by positivity
    omega
  exact ⟨h0, h0, rfl⟩

/-! ## The texture binding -/

/-- The two shapes of the binding. For a swizzled row: the format command with the
two `bsf` values, the address command and the control command, no pitch and no
image-rectangle command. For a linear row: the format command with sizes 0 and
0, the control command, the pitch command with the surface pitch and the
image-rectangle command with the surface dimensions. -/
theorem texture0_binding_shape (eax_u eax_v : Nat) (e : FormatInfo) (dst_txt : SDL_Surface) :
    (e.XguSwizzled = true →
      texture0_binding eax_u eax_v e dst_txt =
        [ XguCommand.set_texture_offset 0,
          XguCommand.set_texture_format 0 e.XguFormat
            (bsf eax_u (dst_txt.w : Int)) (bsf eax_v (dst_txt.h : Int)),
          XguCommand.set_texture_address 0,
          XguCommand.set_texture_control0 0 ]) ∧
    (e.XguSwizzled = false →
      texture0_binding eax_u eax_v e dst_txt =
        [ XguCommand.set_texture_offset 0,
          XguCommand.set_texture_format 0 e.XguFormat 0 0,
          XguCommand.set_texture_control0 0,
          XguCommand.set_texture_control1 0 dst_txt.pitch,
          XguCommand.set_texture_image_rect 0 dst_txt.w dst_txt.h ]) := by
  constructor <;> intro h <;> simp [texture0_binding, h]

/-- For an image of positive dimensions that passed both assertions, the size
fields of the swizzled binding are the base-2 logarithms of the dimensions of
the converted surface. -/
theorem swizzled_size_fields_are_log2 (reencode : SDL_Surface → SDL_PixelFormatEnum → Mem)
    (src_tex : SDL_Surface) (fmt : SDL_PixelFormatEnum) (eax_u eax_v : Nat)
    (hw : 1 ≤ src_tex.w ∧ src_tex.w < 2147483648) (hh : 1 ≤ src_tex.h ∧ src_tex.h < 2147483648)
    (hpw : is_pow2 (src_tex.w : Int) = true) (hph : is_pow2 (src_tex.h : Int) = true) :
    2 ^ bsf eax_u ((SDL_ConvertSurfaceFormat reencode src_tex fmt).w : Int) = src_tex.w ∧
    2 ^ bsf eax_v ((SDL_ConvertSurfaceFormat reencode src_tex fmt).h : Int) = src_tex.h :=
  ⟨bsf_is_log2 eax_u src_tex.w hw.1 hw.2 hpw, bsf_is_log2 eax_v src_tex.h hh.1 hh.2 hph⟩

/-- C7: an image of width 0 and height 0 passes both `is_pow2` checks; for the
swizzled row 0 the format command then carries the two values `bsf` returns on
0, which are whatever the register held, and no value `u` has `2^u = 0`, so the
size fields are not the logarithms of the dimensions. -/
theorem zero_sized_image_breaks_size_fields :
    is_pow2 ((sample_image 0 0).w : Int) = true ∧
    is_pow2 ((sample_image 0 0).h : Int) = true ∧
    ∀ eax_u eax_v : Nat,
      frame_texture0 eax_u eax_v
          (loop_entry sample_reencode (sample_image 0 0) (sample_boot (sample_image 0 0) false))
        = [ XguCommand.set_texture_offset 0,
            XguCommand.set_texture_format 0
              XguTexFormatColor.XGU_TEXTURE_FORMAT_A8B8G8R8_SWIZZLED eax_u eax_v,
            XguCommand.set_texture_address 0,
            XguCommand.set_texture_control0 0 ] ∧
      2 ^ eax_u ≠ (sample_image 0 0).w ∧ 2 ^ eax_v ≠ (sample_image 0 0).h := by
  refine ⟨by decide, by decide, ?_⟩
  intro eax_u eax_v
  refine ⟨rfl, ?_, ?_⟩
  · have : 0 < 2 ^ eax_u := by positivity
    show 2 ^ eax_u ≠ 0
    omega
  · have : 0 < 2 ^ eax_v := by positivity
    show 2 ^ eax_v ≠ 0
    omega

/-! ## The swizzle transform -/

end TextureFormats
